import Mathlib

/-! Formal model of the progress plugin of the sanderson-notifications
repository (src/plugins/progress.go): the diff engine, the debounce state
machine implemented by `Check` and `shouldDelay`, the offset JSON
round-tripping of `UnmarshalJSON`, and the progress-bar renderer.

Modelling conventions: Go machine integers are modelled as `Int`; `time.Time`
and `time.Duration` are modelled as integer nanosecond counts (`Int`), so
`now.Sub(t) = now - t`; the HTTP fetch and HTML parsing that produce the
current snapshot are treated as an input parameter of `Check`; the webhook
send outcome is a boolean parameter (`true` = the Discord send succeeded).
JSON documents are modelled by the inductive `JValue`, and the relevant
behaviour of Go encoding/json (struct and slice (un)marshalling, zero values
for missing fields, failure on type mismatch) is embedded explicitly. -/

namespace plugins

/-- Item of a snapshot: one progress bar (struct `Progress` in progress.go). -/
structure Progress where
  Title : String
  Link : String
  Value : Int
deriving DecidableEq, Repr

/-- One record of a rendered diff (struct `ProgressDiff` in progress.go). -/
structure ProgressDiff where
  Title : String
  Link : String
  OldValue : Int
  Value : Int
  New : Bool
deriving DecidableEq, Repr

/-- Persisted offset of the progress connector (struct `ProgressOffset`).
`DebounceStart = none` models the nil pointer (not debouncing). -/
structure ProgressOffset where
  Published : List Progress
  Observed : List Progress
  DebounceStart : Option Int
deriving DecidableEq, Repr

/-- The `oldKeyed` map of `diff` (progress.go lines 216-220): `old` is
indexed by title by forward iteration with overwrite, so a lookup returns
the last item of `old` carrying the requested title. -/
def oldKeyed (old : List Progress) (t : String) : Option Progress :=
  old.foldl (fun acc v => if v.Title = t then some v else acc) none

/-- The record `diff` builds for one item of `new` (progress.go lines
223-237): a found title copies the old value, a missing title yields the
zero old value and the `New` flag. -/
def diffEntry (old : List Progress) (v : Progress) : ProgressDiff :=
  match oldKeyed old v.Title with
  | some existing => ⟨v.Title, v.Link, existing.Value, v.Value, false⟩
  | none => ⟨v.Title, v.Link, 0, v.Value, true⟩

/-- The condition under which one record clears `noChanges` in `diff`
(progress.go line 239): the item is new or its value changed. -/
def entryChanged (d : ProgressDiff) : Bool :=
  d.New || d.OldValue != d.Value

/-- The diff engine (func `diff`, progress.go lines 214-249). Returns
`none` (the Go nil slice) when every record is unchanged, otherwise one
record per item of `new`, in the order of `new`. -/
def diff (old new : List Progress) : Option (List ProgressDiff) :=
  let result := new.map (diffEntry old)
  if result.any entryChanged then some result else none

/-- Debounce predicate (method `shouldDelay`, progress.go lines 181-190):
immediate mode when the configured delay is zero, always delay when no
debounce has started, otherwise delay while the elapsed time is below the
configured delay. -/
def shouldDelay (DebounceDelay now : Int) (offset : ProgressOffset) : Bool :=
  if DebounceDelay = 0 then false
  else
    match offset.DebounceStart with
    | none => true
    | some s => decide (now - s < DebounceDelay)

/-- Result of one `Check` invocation: the returned offset, the list of
diffs handed to `reportProgress` (one entry per webhook send attempt), and
whether `Check` returned a non-nil error. -/
structure CheckOutcome where
  offset : ProgressOffset
  sent : List (List ProgressDiff)
  err : Bool
deriving DecidableEq, Repr

/-- The debounce state machine of one poll (method `Check`, progress.go
lines 112-179), starting after the snapshot fetch succeeded:
`currentProgress` is the freshly read snapshot, `now` the injected clock
value, and `sendOk` whether the webhook send of `reportProgress` succeeds.
No change against the published baseline clears any debouncing; an
unexpired window defers and starts/resets/keeps the timer; otherwise the
diff is published, returning the pre-update offset and an error when the
send fails. -/
def Check (DebounceDelay : Int) (offset : ProgressOffset)
    (currentProgress : List Progress) (now : Int) (sendOk : Bool) : CheckOutcome :=
  match diff offset.Published currentProgress with
  | none =>
      ⟨⟨offset.Published, currentProgress, none⟩, [], false⟩
  | some changes =>
      if shouldDelay DebounceDelay now offset then
        let newStart : Option Int :=
          match offset.DebounceStart with
          | none => some now
          | some s =>
              if (diff offset.Observed currentProgress).isSome then some now else some s
        ⟨⟨offset.Published, currentProgress, newStart⟩, [], false⟩
      else if sendOk then
        ⟨⟨currentProgress, currentProgress, none⟩, [changes], false⟩
      else
        ⟨offset, [changes], true⟩

/-- Iterated `Check` invocations against a fixed current snapshot, in the
manner of the run loop in TestProgress_Check: each poll feeds the returned
offset into the next call and the attempted sends are concatenated. -/
def runPolls (DebounceDelay : Int) (currentProgress : List Progress) (sendOk : Bool) :
    ProgressOffset → List Int → ProgressOffset × List (List ProgressDiff)
  | offset, [] => (offset, [])
  | offset, t :: ts =>
      let r := Check DebounceDelay offset currentProgress t sendOk
      let rest := runPolls DebounceDelay currentProgress sendOk r.offset ts
      (rest.1, r.sent ++ rest.2)

/-- JSON documents, as far as the offset (un)marshalling needs them. -/
inductive JValue where
  | null : JValue
  | num : Int → JValue
  | str : String → JValue
  | arr : List JValue → JValue
  | obj : List (String × JValue) → JValue

/-- Field lookup in a marshalled JSON object. -/
def jLookup (fields : List (String × JValue)) (k : String) : Option JValue :=
  (fields.find? (fun f => f.1 == k)).map (fun f => f.2)

/-- Go json.Marshal of a `Progress` value: a three-field object. -/
def marshalProgress (p : Progress) : JValue :=
  .obj [("Title", .str p.Title), ("Link", .str p.Link), ("Value", .num p.Value)]

/-- Go json.Marshal of a `[]Progress` slice: an array of objects. -/
def marshalSnapshot (l : List Progress) : JValue :=
  .arr (l.map marshalProgress)

/-- Go json.Marshal of a `ProgressOffset` (no custom marshaller in the
source, so the default struct encoding applies); a nil `DebounceStart`
encodes as null, a timestamp as its (nanosecond) value. -/
def marshalOffset (o : ProgressOffset) : JValue :=
  .obj [("Published", marshalSnapshot o.Published),
        ("Observed", marshalSnapshot o.Observed),
        ("DebounceStart", match o.DebounceStart with
          | none => .null
          | some t => .num t)]

/-- Go json.Unmarshal of a string field: missing fields and JSON null keep
the zero value, a non-string document is a type error. -/
def asGoString : Option JValue → Option String
  | none => some ""
  | some .null => some ""
  | some (.str s) => some s
  | some _ => none

/-- Go json.Unmarshal of an int field: missing fields and JSON null keep
the zero value, a non-number document is a type error. -/
def asGoInt : Option JValue → Option Int
  | none => some 0
  | some .null => some 0
  | some (.num n) => some n
  | some _ => none

/-- Go json.Unmarshal into one `Progress` struct: accepts an object (or
null, which keeps the zero struct), fails on any other document. -/
def unmarshalProgress : JValue → Option Progress
  | .null => some ⟨"", "", 0⟩
  | .obj fs => do
      let t ← asGoString (jLookup fs "Title")
      let l ← asGoString (jLookup fs "Link")
      let v ← asGoInt (jLookup fs "Value")
      pure ⟨t, l, v⟩
  | _ => none

/-- Elementwise decoding of a JSON array into `Progress` values, failing
as soon as one element fails. -/
def unmarshalProgressList : List JValue → Option (List Progress)
  | [] => some []
  | j :: js => do
      let p ← unmarshalProgress j
      let ps ← unmarshalProgressList js
      pure (p :: ps)

/-- Go json.Unmarshal into a `[]Progress` slice: null yields the nil
slice, an array is decoded elementwise, anything else fails. -/
def unmarshalSnapshot : JValue → Option (List Progress)
  | .null => some []
  | .arr xs => unmarshalProgressList xs
  | _ => none

/-- Go json.Unmarshal into the renamed `V2` struct (progress.go lines
52-62): an object whose present fields must decode at their declared
types, missing fields keeping zero values; null leaves the zero struct;
any other document (in particular the legacy array) fails. -/
def unmarshalOffsetV2 : JValue → Option ProgressOffset
  | .null => some ⟨[], [], none⟩
  | .obj fs => do
      let pub ← match jLookup fs "Published" with
        | none => some []
        | some j => unmarshalSnapshot j
      let obs ← match jLookup fs "Observed" with
        | none => some []
        | some j => unmarshalSnapshot j
      let ds ← match jLookup fs "DebounceStart" with
        | none => some none
        | some .null => some none
        | some (.num t) => some (some t)
        | some _ => none
      pure ⟨pub, obs, ds⟩
  | _ => none

/-- Method `ProgressOffset.UnmarshalJSON` (progress.go lines 50-75): try
the new format first; on failure fall back to the legacy bare `[]Progress`
document, interpreted as published = observed = legacy snapshot with no
debounce running. -/
def UnmarshalJSON (data : JValue) : Option ProgressOffset :=
  match unmarshalOffsetV2 data with
  | some o => some o
  | none =>
      match unmarshalSnapshot data with
      | some legacyProgress => some ⟨legacyProgress, legacyProgress, none⟩
      | none => none

/-- Const `blockCount = 100 / blockSize` with `blockSize = 2.5`
(progress.go lines 271-274); the untyped constant is used in int
arithmetic in `Render`, hence the value 40. -/
def blockCount : Int := 40

/-- The `fullBlocks` computation of `Render` (progress.go line 298):
`int(math.Floor(float64(value) / 2.5))`, i.e. the floor of `value / 2.5`,
computed exactly as the floor division of `2 * value` by 5 (the float64
division is exact enough that its floor agrees with the rational floor for
all machine-int inputs). -/
def fullBlocks (v : Int) : Int :=
  Int.fdiv (2 * v) 5

/-- Concatenation of `n` copies of a string, as built by Go
strings.Repeat for a nonnegative count. -/
def repeatStr (s : String) : Nat → String
  | 0 => ""
  | n + 1 => s ++ repeatStr s n

/-- Go strings.Repeat: panics on a negative count (modelled as `none`),
otherwise concatenates `count` copies. -/
def stringsRepeat (s : String) (count : Int) : Option String :=
  if count < 0 then none else some (repeatStr s count.toNat)

/-- The bar portion of one rendered entry (progress.go lines 298-301):
`fullBlocks` filled blocks followed by `blockCount - fullBlocks` empty
blocks; `none` models the strings.Repeat panic on a negative count. -/
def renderBar (v : Int) : Option String := do
  let fb := fullBlocks v
  let filled ← stringsRepeat "█" fb
  let empty ← stringsRepeat "░" (blockCount - fb)
  pure (filled ++ empty)

/-- Go fmt %3d: the decimal representation left-padded with spaces to
width three. -/
def pad3 (v : Int) : String :=
  let s := toString v
  if s.length < 3 then repeatStr " " (3 - s.length) ++ s else s

/-- The title line of one rendered entry (progress.go lines 287-295):
link wrapping, the [New] prefix, and the [Changed] annotation. -/
def renderTitle (p : ProgressDiff) : String :=
  let t := if p.Link.length > 0 then "[" ++ p.Title ++ "](" ++ p.Link ++ ")" else p.Title
  if p.New then "[New] " ++ t
  else if p.Value != p.OldValue then
    "[Changed] " ++ t ++ " (" ++ toString p.OldValue ++ "% → " ++ toString p.Value ++ "%)"
  else t

/-- One entry of the rendered message (progress.go lines 287-303): the
bold title line, then the bar and the right-aligned percentage wrapped in
backquotes. -/
def renderEntry (p : ProgressDiff) : Option String := do
  let bar ← renderBar p.Value
  pure ("**" ++ renderTitle p ++ "**\n\x60" ++ bar ++ " " ++ pad3 p.Value ++ "%\x60")

/-- The rendered entries of all progress bars in order, failing as soon as
one entry panics. -/
def renderEntries : List ProgressDiff → Option (List String)
  | [] => some []
  | p :: ps => do
      let e ← renderEntry p
      let es ← renderEntries ps
      pure (e :: es)

/-- Method `progressRenderer.Render` (progress.go lines 279-307): entries
joined by blank lines, in diff order; `none` models the panic on an entry
whose block counts are negative. -/
def Render (progressBars : List ProgressDiff) : Option String := do
  let entries ← renderEntries progressBars
  pure (String.intercalate "\n\n" entries)

end plugins

section DiffLemmas

open plugins

theorem oldKeyed_append_singleton (l : List Progress) (v : Progress) (t : String) :
    oldKeyed (l ++ [v]) t = if v.Title = t then some v else oldKeyed l t := by
  simp [oldKeyed, List.foldl_append]

theorem oldKeyed_eq_some (old : List Progress) (t : String) (w : Progress)
    (h : oldKeyed old t = some w) : w ∈ old ∧ w.Title = t := by
  induction old using List.reverseRecOn with
  | nil => simp [oldKeyed] at h
  | append_singleton l v ih =>
      rw [oldKeyed_append_singleton] at h
      by_cases hv : v.Title = t
      · rw [if_pos hv] at h
        cases h
        exact ⟨by simp, hv⟩
      · rw [if_neg hv] at h
        obtain ⟨hm, ht⟩ := ih h
        exact ⟨by simp [hm], ht⟩

theorem oldKeyed_eq_none (old : List Progress) (t : String)
    (h : oldKeyed old t = none) : ∀ w ∈ old, w.Title ≠ t := by
  induction old using List.reverseRecOn with
  | nil => simp
  | append_singleton l v ih =>
      rw [oldKeyed_append_singleton] at h
      by_cases hv : v.Title = t
      · rw [if_pos hv] at h
        cases h
      · rw [if_neg hv] at h
        intro w hw
        rcases List.mem_append.mp hw with hw | hw
        · exact ih h w hw
        · rcases List.mem_singleton.mp hw with rfl
          exact hv

theorem diffEntry_unchanged_of_mem_consistent (old : List Progress) (v : Progress)
    (hv : v ∈ old)
    (h : ∀ a ∈ old, ∀ b ∈ old, a.Title = b.Title → a.Value = b.Value) :
    entryChanged (diffEntry old v) = false := by
  cases hk : oldKeyed old v.Title with
  | none => exact absurd rfl (oldKeyed_eq_none old v.Title hk v hv)
  | some w =>
      obtain ⟨hw, ht⟩ := oldKeyed_eq_some old v.Title w hk
      have hval : w.Value = v.Value := h w hw v hv ht
      simp [diffEntry, hk, entryChanged, hval]

theorem diff_eq_none_of_all_unchanged (old new : List Progress)
    (h : ∀ v ∈ new, entryChanged (diffEntry old v) = false) :
    diff old new = none := by
  have : (new.map (diffEntry old)).any entryChanged = false := by
    rw [List.any_eq_false]
    intro d hd
    obtain ⟨v, hv, rfl⟩ := List.mem_map.mp hd
    simp [h v hv]
  simp [diff, this]

theorem diff_eq_some (old new : List Progress) (r : List ProgressDiff)
    (h : diff old new = some r) : r = new.map (diffEntry old) := by
  simp only [diff] at h
  split at h
  · exact (Option.some_inj.mp h).symm
  · exact absurd h (by simp)

theorem diffEntry_fields (old : List Progress) (v : Progress) :
    (diffEntry old v).Title = v.Title ∧ (diffEntry old v).Link = v.Link ∧
    (diffEntry old v).Value = v.Value := by
  cases hk : oldKeyed old v.Title <;> simp [diffEntry, hk]

end DiffLemmas

/-- C5 (amended): for every snapshot `S` in which any two items sharing a
title carry the same value — in particular every snapshot whose titles are
pairwise distinct — `diff(S, S)` is absent. (Unrestricted reflexivity fails:
with duplicate titles of different values the last-write-wins index makes an
earlier duplicate look changed.) -/
theorem diff_self_absent_of_consistent_values (S : List plugins.Progress)
    (h : ∀ a ∈ S, ∀ b ∈ S, a.Title = b.Title → a.Value = b.Value) :
    plugins.diff S S = none :=
  diff_eq_none_of_all_unchanged S S
    (fun v hv => diffEntry_unchanged_of_mem_consistent S v hv h)

/-- C5 counterexample: a snapshot holding two items of the same title with
different values diffs against itself as a non-absent change. -/
theorem diff_self_duplicate_title_cex :
    plugins.diff [⟨"A", "", 10⟩, ⟨"A", "", 20⟩] [⟨"A", "", 10⟩, ⟨"A", "", 20⟩] ≠ none := by
  decide

/-- C5 witness. -/
theorem diff_self_absent_witness :
    plugins.diff [⟨"Project A", "", 50⟩, ⟨"Project B", "", 75⟩]
      [⟨"Project A", "", 50⟩, ⟨"Project B", "", 75⟩] = none :=
  diff_self_absent_of_consistent_values _ (by decide)

/-- C6 (amended): removal is invisible to the diff engine. `diff(old, [])` is
absent for every `old`; when `new` is obtained from `old` purely by removing
items (a sublist) and any two items of `old` sharing a title carry the same
value — in particular when the titles of `old` are pairwise distinct —
`diff(old, new)` is absent, so nothing is published; and every record of any
non-absent diff stems from an item of `new` (items of `old` absent from `new`
contribute no record). (The unrestricted removal statement fails for
duplicate titles with differing values, see the counterexample.) -/
theorem diff_removal_invisible (old new : List plugins.Progress) :
    plugins.diff old [] = none ∧
    (new.Sublist old →
      (∀ a ∈ old, ∀ b ∈ old, a.Title = b.Title → a.Value = b.Value) →
      plugins.diff old new = none) ∧
    (∀ r, plugins.diff old new = some r →
      ∀ d ∈ r, ∃ v ∈ new, d.Title = v.Title ∧ d.Value = v.Value) := by
  refine ⟨rfl, ?_, ?_⟩
  · intro hsub hcons
    exact diff_eq_none_of_all_unchanged old new
      (fun v hv => diffEntry_unchanged_of_mem_consistent old v (hsub.subset hv) hcons)
  · intro r hr d hd
    rw [diff_eq_some old new r hr] at hd
    obtain ⟨v, hv, rfl⟩ := List.mem_map.mp hd
    obtain ⟨ht, _, hval⟩ := diffEntry_fields old v
    exact ⟨v, hv, ht, hval⟩

/-- C6 counterexample: removing one of two same-titled items with different
values yields a non-absent diff, refuting the unrestricted removal claim. -/
theorem diff_removal_duplicate_title_cex :
    plugins.diff [⟨"A", "", 10⟩, ⟨"A", "", 20⟩] [⟨"A", "", 10⟩] ≠ none := by
  decide

/-- C6 witness. -/
theorem diff_removal_witness :
    plugins.diff [⟨"Project A", "", 50⟩, ⟨"Project B", "", 75⟩]
      [⟨"Project A", "", 50⟩] = none :=
  (diff_removal_invisible [⟨"Project A", "", 50⟩, ⟨"Project B", "", 75⟩]
    [⟨"Project A", "", 50⟩]).2.1 (by decide) (by decide)

/-- C7: a non-absent diff has exactly one record per item of `new`, at the
same index: the record copies the item title, link and value; when no item
of `old` shares the title, the record has old value 0 and the new flag;
otherwise the new flag is clear and the old value is the value of a matched
item of `old` with that title (the last such item, by last-write-wins). -/
theorem diff_result_structure (old new : List plugins.Progress)
    (r : List plugins.ProgressDiff) (h : plugins.diff old new = some r) :
    r.length = new.length ∧
    ∀ i (hi : i < new.length) (hri : i < r.length),
      (r.get ⟨i, hri⟩).Title = (new.get ⟨i, hi⟩).Title ∧
      (r.get ⟨i, hri⟩).Link = (new.get ⟨i, hi⟩).Link ∧
      (r.get ⟨i, hri⟩).Value = (new.get ⟨i, hi⟩).Value ∧
      ((∀ w ∈ old, w.Title ≠ (new.get ⟨i, hi⟩).Title) →
        (r.get ⟨i, hri⟩).OldValue = 0 ∧ (r.get ⟨i, hri⟩).New = true) ∧
      (∀ w, w ∈ old → w.Title = (new.get ⟨i, hi⟩).Title →
        (r.get ⟨i, hri⟩).New = false ∧
        ∃ u, u ∈ old ∧ u.Title = (new.get ⟨i, hi⟩).Title ∧
          (r.get ⟨i, hri⟩).OldValue = u.Value) := by
  have hr := diff_eq_some old new r h
  subst hr
  refine ⟨by simp, ?_⟩
  intro i hi hri
  have hget : (new.map (plugins.diffEntry old)).get ⟨i, hri⟩ =
      plugins.diffEntry old (new.get ⟨i, hi⟩) := by
    simp [List.get_eq_getElem, List.getElem_map]
  rw [hget]
  set v := new.get ⟨i, hi⟩ with hv
  refine ⟨(diffEntry_fields old v).1, (diffEntry_fields old v).2.1,
    (diffEntry_fields old v).2.2, ?_, ?_⟩
  · intro hnone
    cases hk : plugins.oldKeyed old v.Title with
    | none => simp [plugins.diffEntry, hk]
    | some w =>
        obtain ⟨hw, ht⟩ := oldKeyed_eq_some old v.Title w hk
        exact absurd ht (hnone w hw)
  · intro w hw ht
    cases hk : plugins.oldKeyed old v.Title with
    | none => exact absurd ht (oldKeyed_eq_none old v.Title hk w hw)
    | some u =>
        obtain ⟨hu, hut⟩ := oldKeyed_eq_some old v.Title u hk
        exact ⟨by simp [plugins.diffEntry, hk], u, hu, hut, by simp [plugins.diffEntry, hk]⟩

/-- C7 witness. -/
theorem diff_result_structure_witness :
    plugins.diff [⟨"Project A", "", 50⟩] [⟨"Project A", "", 50⟩, ⟨"Project B", "", 75⟩] =
      some [⟨"Project A", "", 50, 50, false⟩, ⟨"Project B", "", 0, 75, true⟩] ∧
    ([⟨"Project A", "", 50, 50, false⟩, ⟨"Project B", "", 0, 75, true⟩] :
      List plugins.ProgressDiff).length =
      ([⟨"Project A", "", 50⟩, ⟨"Project B", "", 75⟩] : List plugins.Progress).length :=
  ⟨by decide,
    (diff_result_structure [⟨"Project A", "", 50⟩]
      [⟨"Project A", "", 50⟩, ⟨"Project B", "", 75⟩]
      [⟨"Project A", "", 50, 50, false⟩, ⟨"Project B", "", 0, 75, true⟩] (by decide)).1⟩

section DebounceLemmas

open plugins

theorem Check_clear_eq (D now : Int) (off : ProgressOffset) (cur : List Progress)
    (sendOk : Bool) (hnone : diff off.Published cur = none) :
    Check D off cur now sendOk = ⟨⟨off.Published, cur, none⟩, [], false⟩ := by
  unfold Check
  rw [hnone]

theorem Check_defer_eq (D now : Int) (off : ProgressOffset) (cur : List Progress)
    (sendOk : Bool) (c : List ProgressDiff)
    (hchange : diff off.Published cur = some c)
    (hdelay : shouldDelay D now off = true) :
    Check D off cur now sendOk =
      ⟨⟨off.Published, cur,
        match off.DebounceStart with
        | none => some now
        | some s => if (diff off.Observed cur).isSome then some now else some s⟩,
       [], false⟩ := by
  unfold Check
  rw [hchange, hdelay]
  simp

theorem Check_publish_eq (D now : Int) (off : ProgressOffset) (cur : List Progress)
    (sendOk : Bool) (c : List ProgressDiff)
    (hchange : diff off.Published cur = some c)
    (hready : shouldDelay D now off = false) :
    Check D off cur now sendOk =
      if sendOk then ⟨⟨cur, cur, none⟩, [c], false⟩ else ⟨off, [c], true⟩ := by
  unfold Check
  rw [hchange, hready]
  simp

theorem shouldDelay_pos_none (D now : Int) (off : ProgressOffset)
    (hD : 0 < D) (hds : off.DebounceStart = none) :
    shouldDelay D now off = true := by
  unfold shouldDelay
  rw [if_neg (by omega), hds]

theorem shouldDelay_pos_some (D now s : Int) (off : ProgressOffset)
    (hD : 0 < D) (hds : off.DebounceStart = some s) :
    shouldDelay D now off = decide (now - s < D) := by
  unfold shouldDelay
  rw [if_neg (by omega), hds]

theorem runPolls_fixed (D : Int) (cur : List Progress) (sendOk : Bool)
    (off : ProgressOffset) (ts : List Int)
    (hstep : ∀ t ∈ ts, Check D off cur t sendOk = ⟨off, [], false⟩) :
    runPolls D cur sendOk off ts = (off, []) := by
  induction ts with
  | nil => rfl
  | cons t ts ih =>
      have h := hstep t (by simp)
      simp only [runPolls, h]
      rw [ih (fun q hq => hstep q (by simp [hq]))]
      rfl

end DebounceLemmas

/-- C1: with a positive debounce delay `D`, starting from a clean offset
(published = observed, no debounce running) and a single change that stays
stable: the poll at time `t0` starts the window and publishes nothing;
every further poll at a time `t` with `t - t0 < D` publishes nothing and
leaves the offset at (published baseline, current snapshot, window start
`t0`); and the first poll at a time `tpub` with `tpub - t0 ≥ D` performs
the one webhook send of the pending diff and returns published = observed =
current with the debounce cleared. -/
theorem debounce_single_change (D t0 tpub : Int) (pub cur : List plugins.Progress)
    (c : List plugins.ProgressDiff) (hD : 0 < D)
    (hchange : plugins.diff pub cur = some c)
    (hstable : plugins.diff cur cur = none)
    (ts : List Int) (hts : ∀ t ∈ ts, t - t0 < D) (hpub : D ≤ tpub - t0) :
    plugins.runPolls D cur true ⟨pub, pub, none⟩ (t0 :: ts) =
      (⟨pub, cur, some t0⟩, []) ∧
    plugins.Check D ⟨pub, cur, some t0⟩ cur tpub true =
      ⟨⟨cur, cur, none⟩, [c], false⟩ := by
  have hold : ∀ t : Int, t - t0 < D →
      plugins.Check D ⟨pub, cur, some t0⟩ cur t true = ⟨⟨pub, cur, some t0⟩, [], false⟩ := by
    intro t ht
    rw [Check_defer_eq D t ⟨pub, cur, some t0⟩ cur true c hchange
      (by rw [shouldDelay_pos_some D t t0 _ hD rfl]; simpa using ht)]
    simp [hstable]
  constructor
  · have hstep0 : plugins.Check D ⟨pub, pub, none⟩ cur t0 true =
        ⟨⟨pub, cur, some t0⟩, [], false⟩ := by
      rw [Check_defer_eq D t0 ⟨pub, pub, none⟩ cur true c hchange
        (shouldDelay_pos_none D t0 _ hD rfl)]
    simp only [plugins.runPolls, hstep0]
    rw [runPolls_fixed D cur true ⟨pub, cur, some t0⟩ ts
      (fun t ht => hold t (hts t ht))]
    rfl
  · rw [Check_publish_eq D tpub ⟨pub, cur, some t0⟩ cur true c hchange
      (by rw [shouldDelay_pos_some D tpub t0 _ hD rfl]; simp; omega)]
    simp

/-- C1 witness. -/
theorem debounce_single_change_witness :
    plugins.runPolls 10 [⟨"Project A", "", 75⟩] true
        ⟨[⟨"Project A", "", 50⟩], [⟨"Project A", "", 50⟩], none⟩ [0, 4, 8] =
      (⟨[⟨"Project A", "", 50⟩], [⟨"Project A", "", 75⟩], some 0⟩, []) ∧
    plugins.Check 10 ⟨[⟨"Project A", "", 50⟩], [⟨"Project A", "", 75⟩], some 0⟩
        [⟨"Project A", "", 75⟩] 12 true =
      ⟨⟨[⟨"Project A", "", 75⟩], [⟨"Project A", "", 75⟩], none⟩,
        [[⟨"Project A", "", 50, 75, false⟩]], false⟩ :=
  debounce_single_change 10 0 12 [⟨"Project A", "", 50⟩] [⟨"Project A", "", 75⟩]
    [⟨"Project A", "", 50, 75, false⟩] (by decide) (by decide) (by decide)
    [4, 8] (by decide) (by decide)

/-- C2: with a zero debounce delay and a non-absent diff against the
published baseline, a single `Check` invocation hands exactly that diff to
one webhook send, and a successful send returns published = observed =
current with no debounce running. -/
theorem zero_debounce_publishes_immediately (off : plugins.ProgressOffset)
    (cur : List plugins.Progress) (now : Int) (sendOk : Bool)
    (c : List plugins.ProgressDiff)
    (hchange : plugins.diff off.Published cur = some c) :
    (plugins.Check 0 off cur now sendOk).sent = [c] ∧
    (sendOk = true →
      plugins.Check 0 off cur now sendOk = ⟨⟨cur, cur, none⟩, [c], false⟩) := by
  have hsd : plugins.shouldDelay 0 now off = false := by
    unfold plugins.shouldDelay
    rw [if_pos rfl]
  rw [Check_publish_eq 0 now off cur sendOk c hchange hsd]
  cases sendOk <;> simp

/-- C2 witness. -/
theorem zero_debounce_publishes_immediately_witness :
    (plugins.Check 0 ⟨[⟨"Project A", "", 50⟩], [⟨"Project A", "", 50⟩], none⟩
        [⟨"Project A", "", 75⟩] 0 true).sent = [[⟨"Project A", "", 50, 75, false⟩]] :=
  (zero_debounce_publishes_immediately ⟨[⟨"Project A", "", 50⟩], [⟨"Project A", "", 50⟩], none⟩
    [⟨"Project A", "", 75⟩] 0 true [⟨"Project A", "", 50, 75, false⟩] (by decide)).1

/-- C3: with a positive debounce delay, an unexpired (or not yet started)
window and a non-absent diff against the published baseline, `Check`
publishes nothing, keeps the published baseline, records the current
snapshot as observed, and sets the window start to now when it was null,
resets it to now when the source changed again since the last observation,
and keeps it unchanged otherwise. -/
theorem unexpired_window_defers (D now : Int) (off : plugins.ProgressOffset)
    (cur : List plugins.Progress) (sendOk : Bool) (c : List plugins.ProgressDiff)
    (hD : 0 < D)
    (hchange : plugins.diff off.Published cur = some c)
    (hdelay : plugins.shouldDelay D now off = true) :
    (plugins.Check D off cur now sendOk).sent = [] ∧
    (plugins.Check D off cur now sendOk).err = false ∧
    (plugins.Check D off cur now sendOk).offset.Published = off.Published ∧
    (plugins.Check D off cur now sendOk).offset.Observed = cur ∧
    (off.DebounceStart = none →
      (plugins.Check D off cur now sendOk).offset.DebounceStart = some now) ∧
    (∀ s, off.DebounceStart = some s → (plugins.diff off.Observed cur).isSome = true →
      (plugins.Check D off cur now sendOk).offset.DebounceStart = some now) ∧
    (∀ s, off.DebounceStart = some s → plugins.diff off.Observed cur = none →
      (plugins.Check D off cur now sendOk).offset.DebounceStart = some s) := by
  rw [Check_defer_eq D now off cur sendOk c hchange hdelay]
  refine ⟨rfl, rfl, rfl, rfl, ?_, ?_, ?_⟩
  · intro h
    rw [h]
  · intro s hs hobs
    rw [hs]
    simp [hobs]
  · intro s hs hobs
    rw [hs]
    simp [hobs]

/-- C3 witness. -/
theorem unexpired_window_defers_witness :
    (plugins.Check 10 ⟨[⟨"Project A", "", 50⟩], [⟨"Project A", "", 50⟩], none⟩
        [⟨"Project A", "", 75⟩] 0 true).sent = [] ∧
    (plugins.Check 10 ⟨[⟨"Project A", "", 50⟩], [⟨"Project A", "", 50⟩], none⟩
        [⟨"Project A", "", 75⟩] 0 true).offset.DebounceStart = some 0 :=
  have h := unexpired_window_defers 10 0
    ⟨[⟨"Project A", "", 50⟩], [⟨"Project A", "", 50⟩], none⟩
    [⟨"Project A", "", 75⟩] true [⟨"Project A", "", 50, 75, false⟩]
    (by decide) (by decide) (by decide)
  ⟨h.1, h.2.2.2.2.1 rfl⟩

/-- C4: when the webhook send of the publish step fails, `Check` returns
the exact offset it was invoked with (published, observed and the window
start all unchanged) together with a non-nil error, after having attempted
the one send of the pending diff. -/
theorem send_failure_returns_old_offset (D now : Int) (off : plugins.ProgressOffset)
    (cur : List plugins.Progress) (c : List plugins.ProgressDiff)
    (hchange : plugins.diff off.Published cur = some c)
    (hready : plugins.shouldDelay D now off = false) :
    plugins.Check D off cur now false = ⟨off, [c], true⟩ := by
  rw [Check_publish_eq D now off cur false c hchange hready]
  simp

/-- C4 witness. -/
theorem send_failure_returns_old_offset_witness :
    plugins.Check 0 ⟨[⟨"Project A", "", 50⟩], [⟨"Project A", "", 60⟩], none⟩
        [⟨"Project A", "", 75⟩] 3 false =
      ⟨⟨[⟨"Project A", "", 50⟩], [⟨"Project A", "", 60⟩], none⟩,
        [[⟨"Project A", "", 50, 75, false⟩]], true⟩ :=
  send_failure_returns_old_offset 0 3
    ⟨[⟨"Project A", "", 50⟩], [⟨"Project A", "", 60⟩], none⟩
    [⟨"Project A", "", 75⟩] [⟨"Project A", "", 50, 75, false⟩] (by decide) (by decide)

/-- C9: every offset returned by a `Check` invocation that reports no
error satisfies the invariant: the window start is non-null exactly when a
pending difference between the returned published and observed snapshots
exists that this invocation did not publish; and whenever the diff between
the incoming published baseline and the current snapshot is absent, the
returned window start is null. -/
theorem check_debounce_invariant (D now : Int) (off : plugins.ProgressOffset)
    (cur : List plugins.Progress) (sendOk : Bool) (off2 : plugins.ProgressOffset)
    (sent2 : List (List plugins.ProgressDiff))
    (h : plugins.Check D off cur now sendOk = ⟨off2, sent2, false⟩) :
    (off2.DebounceStart.isSome = true ↔
      ((plugins.diff off2.Published off2.Observed).isSome = true ∧ sent2 = [])) ∧
    (plugins.diff off.Published cur = none → off2.DebounceStart = none) := by
  cases hd : plugins.diff off.Published cur with
  | none =>
      rw [Check_clear_eq D now off cur sendOk hd] at h
      obtain ⟨h1, h2, -⟩ := plugins.CheckOutcome.mk.injEq _ _ _ _ _ _ ▸ h
      constructor
      · rw [← h1, ← h2]
        simp [hd]
      · intro _
        rw [← h1]
  | some c =>
      cases hsd : plugins.shouldDelay D now off with
      | true =>
          rw [Check_defer_eq D now off cur sendOk c hd hsd] at h
          obtain ⟨h1, h2, -⟩ := plugins.CheckOutcome.mk.injEq _ _ _ _ _ _ ▸ h
          constructor
          · rw [← h1, ← h2]
            cases hds : off.DebounceStart with
            | none => simp [hd]
            | some s =>
                cases hobs : (plugins.diff off.Observed cur).isSome <;> simp [hd, hobs]
          · intro hcontra
            exact absurd hcontra (by simp)
      | false =>
          rw [Check_publish_eq D now off cur sendOk c hd hsd] at h
          cases sendOk with
          | true =>
              rw [if_pos rfl] at h
              obtain ⟨h1, h2, -⟩ := plugins.CheckOutcome.mk.injEq _ _ _ _ _ _ ▸ h
              constructor
              · rw [← h1, ← h2]
                simp
              · intro hcontra
                exact absurd hcontra (by simp)
          | false =>
              rw [if_neg (by simp)] at h
              obtain ⟨-, -, h3⟩ := plugins.CheckOutcome.mk.injEq _ _ _ _ _ _ ▸ h
              cases h3

/-- C9 witness. -/
theorem check_debounce_invariant_witness :
    ((⟨[⟨"Project A", "", 50⟩], [⟨"Project A", "", 75⟩], some 0⟩ :
        plugins.ProgressOffset).DebounceStart.isSome = true ↔
      ((plugins.diff [⟨"Project A", "", 50⟩] [⟨"Project A", "", 75⟩]).isSome = true ∧
        ([] : List (List plugins.ProgressDiff)) = [])) ∧
    (plugins.diff [⟨"Project A", "", 50⟩] [⟨"Project A", "", 75⟩] = none →
      (⟨[⟨"Project A", "", 50⟩], [⟨"Project A", "", 75⟩], some 0⟩ :
        plugins.ProgressOffset).DebounceStart = none) :=
  check_debounce_invariant 10 0
    ⟨[⟨"Project A", "", 50⟩], [⟨"Project A", "", 50⟩], none⟩
    [⟨"Project A", "", 75⟩] true
    ⟨[⟨"Project A", "", 50⟩], [⟨"Project A", "", 75⟩], some 0⟩ [] (by decide)

section JsonLemmas

open plugins

theorem unmarshalProgress_marshal (p : Progress) :
    unmarshalProgress (marshalProgress p) = some p := by
  cases p
  rfl

theorem unmarshalProgressList_marshal (l : List Progress) :
    unmarshalProgressList (l.map marshalProgress) = some l := by
  induction l with
  | nil => rfl
  | cons p l ih => simp [unmarshalProgressList, unmarshalProgress_marshal, ih]

theorem unmarshalSnapshot_marshal (l : List Progress) :
    unmarshalSnapshot (marshalSnapshot l) = some l := by
  simp [marshalSnapshot, unmarshalSnapshot, unmarshalProgressList_marshal]

end JsonLemmas

/-- C8: deserializing a serialized `ProgressOffset` yields the original
offset (hence identical subsequent `Check` behaviour, `Check` being a
function of the offset value); and deserializing a legacy bare snapshot
array yields published = observed = legacy snapshot with no debounce
running. -/
theorem offset_roundtrip (o : plugins.ProgressOffset) (l : List plugins.Progress) :
    plugins.UnmarshalJSON (plugins.marshalOffset o) = some o ∧
    plugins.UnmarshalJSON (plugins.marshalSnapshot l) = some ⟨l, l, none⟩ := by
  constructor
  · cases o with
    | mk pub obs ds =>
        cases ds with
        | none =>
            simp [plugins.UnmarshalJSON, plugins.marshalOffset, plugins.unmarshalOffsetV2,
              plugins.jLookup, List.find?, unmarshalSnapshot_marshal]
        | some t =>
            simp [plugins.UnmarshalJSON, plugins.marshalOffset, plugins.unmarshalOffsetV2,
              plugins.jLookup, List.find?, unmarshalSnapshot_marshal]
  · simp [plugins.UnmarshalJSON, plugins.marshalSnapshot, plugins.unmarshalOffsetV2,
      plugins.unmarshalSnapshot, unmarshalProgressList_marshal]

section RenderLemmas

open plugins

theorem fdiv5_bounds (n : Int) :
    5 * (Int.fdiv n 5) ≤ n ∧ n < 5 * (Int.fdiv n 5) + 5 := by
  have h1 := Int.fdiv_add_fmod n 5
  have h2 := Int.fmod_nonneg' n (show (0 : Int) < 5 by omega)
  have h3 := Int.fmod_lt_of_pos n (show (0 : Int) < 5 by omega)
  omega

theorem stringsRepeat_of_nonneg (s : String) (n : Int) (h : 0 ≤ n) :
    stringsRepeat s n = some (repeatStr s n.toNat) := by
  unfold stringsRepeat
  rw [if_neg (by omega)]

theorem stringsRepeat_of_neg (s : String) (n : Int) (h : n < 0) :
    stringsRepeat s n = none := by
  unfold stringsRepeat
  rw [if_pos h]

theorem repeatStr_length (s : String) (n : Nat) :
    (repeatStr s n).length = n * s.length := by
  induction n with
  | zero => simp [repeatStr]
  | succ n ih =>
      rw [repeatStr, String.length_append, ih, Nat.succ_mul]
      omega

theorem renderBar_in_range (v : Int) (h0 : 0 ≤ v) (h1 : v ≤ 100) :
    renderBar v =
      some (repeatStr "█" (fullBlocks v).toNat ++
            repeatStr "░" (blockCount - fullBlocks v).toNat) := by
  have hb := fdiv5_bounds (2 * v)
  have hfb0 : 0 ≤ fullBlocks v := Int.fdiv_nonneg (by omega) (by omega)
  have hfb40 : fullBlocks v ≤ 40 := by
    unfold fullBlocks
    omega
  simp only [renderBar]
  rw [stringsRepeat_of_nonneg _ _ hfb0,
    stringsRepeat_of_nonneg _ _ (show (0 : Int) ≤ blockCount - fullBlocks v by
      unfold blockCount
      omega)]
  rfl

theorem renderBar_undefined_out_of_range (v : Int) (h : v < 0 ∨ 102 < v) :
    renderBar v = none := by
  have hb := fdiv5_bounds (2 * v)
  rcases h with h | h
  · have hneg : fullBlocks v < 0 := by
      unfold fullBlocks
      omega
    simp only [renderBar]
    rw [stringsRepeat_of_neg _ _ hneg]
    rfl
  · have hfb0 : 0 ≤ fullBlocks v := Int.fdiv_nonneg (by omega) (by omega)
    have h41 : 41 ≤ fullBlocks v := by
      unfold fullBlocks
      omega
    simp only [renderBar]
    rw [stringsRepeat_of_nonneg _ _ hfb0,
      stringsRepeat_of_neg _ _ (show blockCount - fullBlocks v < 0 by
        unfold blockCount
        omega)]
    rfl

theorem renderEntries_isSome (l : List ProgressDiff)
    (h : ∀ p ∈ l, 0 ≤ p.Value ∧ p.Value ≤ 100) :
    (renderEntries l).isSome = true := by
  induction l with
  | nil => rfl
  | cons p l ih =>
      have ihs := ih (fun q hq => h q (by simp [hq]))
      obtain ⟨es, hes⟩ := Option.isSome_iff_exists.mp ihs
      have hp := h p (by simp)
      have hbar := renderBar_in_range p.Value hp.1 hp.2
      simp [renderEntries, renderEntry, hbar, hes]

end RenderLemmas

/-- C10 (amended): for every list of diff entries whose values lie in 0..100,
`Render` is total and each entry's bar is exactly `fullBlocks v` (the floor
of `value / 2.5`) filled blocks followed by `40 - fullBlocks v` empty blocks,
40 block characters in total; for a value below 0 or above 102 the bar (and
hence `Render` on any list containing such an entry) is undefined, the
negative-count string repetition panicking. (The original bound "above 100"
fails: values 101 and 102 still floor to 40 filled blocks and render.) -/
theorem render_total_in_range (l : List plugins.ProgressDiff)
    (h : ∀ p ∈ l, 0 ≤ p.Value ∧ p.Value ≤ 100) :
    (plugins.Render l).isSome = true ∧
    (∀ p ∈ l, ∃ s, plugins.renderBar p.Value = some s ∧
      s = plugins.repeatStr "█" (plugins.fullBlocks p.Value).toNat ++
          plugins.repeatStr "░" (plugins.blockCount - plugins.fullBlocks p.Value).toNat ∧
      s.length = 40) ∧
    (∀ v : Int, v < 0 ∨ 102 < v → plugins.renderBar v = none) := by
  refine ⟨?_, ?_, renderBar_undefined_out_of_range⟩
  · obtain ⟨es, hes⟩ := Option.isSome_iff_exists.mp (renderEntries_isSome l h)
    simp [plugins.Render, hes]
  · intro p hp
    have hv := h p hp
    have hb := fdiv5_bounds (2 * p.Value)
    have hfb0 : 0 ≤ plugins.fullBlocks p.Value := Int.fdiv_nonneg (by omega) (by omega)
    have hfb40 : plugins.fullBlocks p.Value ≤ 40 := by
      have := hv.2
      unfold plugins.fullBlocks
      omega
    refine ⟨_, renderBar_in_range p.Value hv.1 hv.2, rfl, ?_⟩
    rw [String.length_append, repeatStr_length, repeatStr_length]
    have hlen1 : ("█" : String).length = 1 := rfl
    have hlen2 : ("░" : String).length = 1 := rfl
    rw [hlen1, hlen2]
    unfold plugins.blockCount
    omega

/-- C10 counterexample: an entry with value 101 — above 100 — still renders
(its block count floors to 40, so no negative repetition count arises),
refuting the claim that `Render` is undefined above 100. -/
theorem render_above_100_defined_cex :
    (plugins.Render [⟨"Project A", "", 0, 101, true⟩]).isSome = true := by
  decide

/-- C10 witness. -/
theorem render_total_in_range_witness :
    (plugins.Render [⟨"Project A", "", 50, 75, false⟩]).isSome = true :=
  (render_total_in_range [⟨"Project A", "", 50, 75, false⟩] (by decide)).1
